import Mathlib

/-!
Verification of the ZBOT trading-signal pipeline.

This file is a shallow embedding of the signal-generation core of the
repository (analysis.py, api_client.py, monitoring.py, with thresholds from
config.py), together with theorems settling the behavioural claims about it.

Numeric values are modelled as exact rationals (`ℚ`); the two indicator
functions whose Python implementation takes a square root
(`calculate_z_score`, `calculate_bollinger_bands`) return real numbers, with
`Real.sqrt` standing for `pandas` `std`.  Python dictionaries returned by the
classifier are modelled by the `Signal` structure, and `None` by `Option`.
-/

namespace ZBot

/-! ### List statistics used by the pandas rolling expressions -/

/-- Arithmetic mean of a list of rationals (`Series.mean()`); the mean of an
empty list is `0` because `ℚ` division by zero is `0`. -/
def mean (l : List ℚ) : ℚ := l.sum / l.length

/-- The trailing window of size `n`: the last `n` elements of `l`
(`Series.rolling(window=n)` evaluated at the final index). -/
def lastN (n : ℕ) (l : List ℚ) : List ℚ := l.drop (l.length - n)

/-- Sum of squared deviations from the mean. -/
def devSqSum (l : List ℚ) : ℚ := (l.map (fun x => (x - mean l) ^ 2)).sum

/-- Sample variance: `pandas` `Series.std()` squared (`ddof = 1`, dividing by
`n - 1`). -/
def sampleVar (l : List ℚ) : ℚ := devSqSum l / ((l.length : ℚ) - 1)

/-- Last element of a list, `0` when empty (`Series.iloc[-1]`). -/
def lastD (l : List ℚ) : ℚ := l.getLastD 0

/-! ### Indicator Engine (analysis.py, `TradingAnalyzer` indicator methods,
lines 21-114)

Each pandas rolling expression is evaluated at its final index only, which is
what every method returns (`.iloc[-1]`); the guards on insufficient history
are translated literally.  `calculate_z_score` and `calculate_bollinger_bands`
return reals because `pandas` `std` takes a square root; their short-history
branch conditions stay decidable rationals.  The `std == 0` test of
`calculate_z_score` is rendered as a zero test of the sample variance, which
is equivalent because the variance is a sum of squares over a positive count,
hence nonnegative, and `Real.sqrt v = 0 ↔ v = 0` on nonnegative `v`. -/

/-- `TradingAnalyzer.calculate_sma` (lines 35-39). -/
def calculate_sma (prices : List ℚ) (period : ℕ) : ℚ :=
  if prices.length < period then (if 0 < prices.length then mean prices else 0)
  else mean (lastN period prices)

/-- `TradingAnalyzer.calculate_z_score` (lines 21-33): 0 when the series is
shorter than the period or the rolling standard deviation is zero, otherwise
the distance of the last price from the rolling mean in standard deviations. -/
noncomputable def calculate_z_score (prices : List ℚ) (period : ℕ) : ℝ :=
  if prices.length < period then 0
  else if sampleVar (lastN period prices) = 0 then 0
  else ((lastD prices - mean (lastN period prices) : ℚ) : ℝ)
    / Real.sqrt ((sampleVar (lastN period prices) : ℚ) : ℝ)

/-- `TradingAnalyzer.calculate_rsi` (lines 41-55): `prices.diff()` yields one
delta per consecutive pair; positive deltas feed the gain average and negated
negative deltas the loss average, both over the trailing `period` window
(the leading `NaN` of `diff` never enters that window because the guard
requires `period + 1` points); 100 when the loss average is zero. -/
def calculate_rsi (prices : List ℚ) (period : ℕ) : ℚ :=
  if prices.length < period + 1 then 50
  else
    let deltas := List.zipWith (fun a b => b - a) prices prices.tail
    let gainLast := mean (lastN period (deltas.map fun d => if 0 < d then d else 0))
    let lossLast := mean (lastN period (deltas.map fun d => if d < 0 then -d else 0))
    if lossLast = 0 then 100
    else 100 - 100 / (1 + gainLast / lossLast)

/-- One step stream of `pandas` `ewm(span=...).mean()` with the default
`adjust=True`: the weighted mean at index `t` is
`(x_t + w·x_{t-1} + w²·x_{t-2} + ...) / (1 + w + w² + ...)`, maintained here
through the running numerator and denominator. -/
def ewmAux (w : ℚ) : List ℚ → ℚ → ℚ → List ℚ
  | [], _, _ => []
  | x :: rest, num, den =>
      ((x + w * num) / (1 + w * den)) :: ewmAux w rest (x + w * num) (1 + w * den)

/-- The full series `Series.ewm(span=span).mean()`; the decay is
`w = 1 - α` with `α = 2 / (span + 1)`. -/
def ewmMean (span : ℕ) (l : List ℚ) : List ℚ :=
  ewmAux (1 - 2 / ((span : ℚ) + 1)) l 0 0

/-- `TradingAnalyzer.calculate_macd` (lines 57-68): `(0,0,0)` when the series
is shorter than the slow span, otherwise the last values of the MACD line
(fast EMA minus slow EMA), its signal EMA, and their difference. -/
def calculate_macd (prices : List ℚ) (fast slow signal : ℕ) : ℚ × ℚ × ℚ :=
  if prices.length < slow then (0, 0, 0)
  else
    let macdLine := List.zipWith (fun a b => a - b) (ewmMean fast prices) (ewmMean slow prices)
    let signalLine := ewmMean signal macdLine
    let histogram := List.zipWith (fun a b => a - b) macdLine signalLine
    (lastD macdLine, lastD signalLine, lastD histogram)

/-- `TradingAnalyzer.calculate_volume_sma` (lines 70-74). -/
def calculate_volume_sma (volumes : List ℚ) (period : ℕ) : ℚ :=
  if volumes.length < period then (if 0 < volumes.length then mean volumes else 0)
  else mean (lastN period volumes)

/-- `TradingAnalyzer.calculate_bollinger_bands` (lines 76-87). -/
noncomputable def calculate_bollinger_bands (prices : List ℚ) (period : ℕ) (stdDev : ℚ) :
    ℝ × ℝ × ℝ :=
  if prices.length < period then (0, 0, 0)
  else
    ((mean (lastN period prices) : ℚ)
        + Real.sqrt ((sampleVar (lastN period prices) : ℚ) : ℝ) * (stdDev : ℝ),
      ((mean (lastN period prices) : ℚ) : ℝ),
      ((mean (lastN period prices) : ℚ) : ℝ)
        - Real.sqrt ((sampleVar (lastN period prices) : ℚ) : ℝ) * (stdDev : ℝ))

/-- Minimum of a nonempty list, 0 on the empty list (`rolling(...).min()` at
the final index). -/
def listMin : List ℚ → ℚ
  | [] => 0
  | x :: xs => xs.foldl min x

/-- Maximum of a nonempty list, 0 on the empty list. -/
def listMax : List ℚ → ℚ
  | [] => 0
  | x :: xs => xs.foldl max x

/-- `TradingAnalyzer.calculate_stochastic` (lines 89-100): `(50,50)` when the
close series is shorter than the period, otherwise `%K` from the trailing
`period` high/low window and `%D` as the 3-period mean of `%K`. -/
def calculate_stochastic (high low close : List ℚ) (period : ℕ) : ℚ × ℚ :=
  if close.length < period then (50, 50)
  else
    let kAt : ℕ → ℚ := fun i =>
      let ll := listMin ((low.drop (i + 1 - period)).take period)
      let hh := listMax ((high.drop (i + 1 - period)).take period)
      100 * (close.getD i 0 - ll) / (hh - ll)
    let n := close.length
    (kAt (n - 1), (kAt (n - 3) + kAt (n - 2) + kAt (n - 1)) / 3)

/-- Pointwise combination of three lists, truncating to the shortest. -/
def zipWith3 (f : ℚ → ℚ → ℚ → ℚ) : List ℚ → List ℚ → List ℚ → List ℚ
  | a :: as, b :: bs, c :: cs => f a b c :: zipWith3 f as bs cs
  | _, _, _ => []

/-- The true-range series of `calculate_atr`: the first true range is
`high - low` alone because `close.shift()` starts with `NaN`, which the
row-wise max skips; every later one compares against the previous close. -/
def trueRanges (high low close : List ℚ) : List ℚ :=
  match high, low with
  | h0 :: hs, l0 :: ls =>
      (h0 - l0) :: zipWith3 (fun h l cp => max (h - l) (max |h - cp| |l - cp|)) hs ls close
  | _, _ => []

/-- `TradingAnalyzer.calculate_atr` (lines 102-114): 0 when the close series
is shorter than the period, otherwise the trailing mean of the true range. -/
def calculate_atr (high low close : List ℚ) (period : ℕ) : ℚ :=
  if close.length < period then 0
  else mean (lastN period (trueRanges high low close))

/-! ### Signal Classifier (analysis.py, `TradingAnalyzer.generate_signal` and
`TradingAnalyzer._calculate_signal_precision`, lines 116-210)

The classifier is a pure decision function of the four indicator inputs, so
it is embedded generically over a linear ordered field `K`; the claims about
it are instantiated at `K = ℚ`, and the series-level pipeline instantiates it
at `K = ℝ` (the Python code computes with floats throughout).  Thresholds are
inlined from config.py: `Z_SCORE_THRESHOLD = 2.0`, `RSI_OVERSOLD = 30`,
`RSI_OVERBOUGHT = 70`. -/

/-- The dictionary returned by `generate_signal` on success. -/
structure Signal (K : Type) where
  direction : String
  strength : String
  precision : K
deriving DecidableEq

section Classifier

variable {K : Type} [LinearOrderedField K]

/-- Direction precedence rules (analysis.py lines 120-146): z-score beyond
±2.0 first, then RSI beyond 70/30, then MACD histogram beyond ±0.001;
otherwise no direction. -/
def signal_direction (z rsi hist : K) : Option String :=
  if z > 2 then some "SELL"
  else if z < -2 then some "BUY"
  else if rsi > 70 then some "SELL"
  else if rsi < 30 then some "BUY"
  else if hist < -(1/1000) then some "SELL"
  else if hist > 1/1000 then some "BUY"
  else none

/-- Strength before the volume rule (analysis.py lines 148-159): starts WEAK,
set to STRONG when RSI confirms the direction, then set to STRONG when the
MACD histogram sign agrees with the direction. -/
def base_strength (rsi hist : K) (d : String) : String :=
  if (hist > 0 ∧ d = "BUY") ∨ (hist < 0 ∧ d = "SELL") then "STRONG"
  else if (rsi > 70 ∧ d = "SELL") ∨ (rsi < 30 ∧ d = "BUY") then "STRONG"
  else "WEAK"

/-- Volume escalation of one tier (analysis.py lines 162-166). -/
def volume_escalate (s : String) : String :=
  if s = "WEAK" then "MODERATE" else if s = "MODERATE" then "STRONG" else s

/-- Final strength: the volume rule fires when `volume_ratio > 1.5`. -/
def signal_strength (rsi hist vr : K) (d : String) : String :=
  if vr > 3/2 then volume_escalate (base_strength rsi hist d)
  else base_strength rsi hist d

/-- RSI contribution to the precision score (analysis.py lines 190-196). -/
def rsi_contribution (rsi : K) : K :=
  if rsi < 25 ∨ rsi > 75 then 20
  else if rsi < 30 ∨ rsi > 70 then 15
  else if rsi < 40 ∨ rsi > 60 then 10
  else 0

/-- MACD contribution to the precision score (analysis.py lines 198-202);
`2/1000` and `1/1000` are the literals `0.002` and `0.001`. -/
def macd_contribution (hist : K) : K :=
  if |hist| > 2/1000 then 15 else if |hist| > 1/1000 then 10 else 0

/-- Volume contribution to the precision score (analysis.py lines 204-208). -/
def volume_contribution (vr : K) : K :=
  if vr > 3/2 then 15 else if vr > 6/5 then 10 else 0

/-- `TradingAnalyzer._calculate_signal_precision` (analysis.py lines
181-210): base 50, plus `min(|z|/3, 1) * 30`, plus the three tier
contributions, capped at 100. -/
def calculate_signal_precision (z rsi hist vr : K) : K :=
  min (50 + min (|z| / 3) 1 * 30
        + rsi_contribution rsi + macd_contribution hist + volume_contribution vr)
    100

/-- `TradingAnalyzer.generate_signal` (analysis.py lines 116-179): determine
a direction by the precedence rules, compute strength and precision, and
suppress the signal when the precision is below 60. -/
def generate_signal (z rsi hist vr : K) : Option (Signal K) :=
  match signal_direction z rsi hist with
  | none => none
  | some d =>
      if calculate_signal_precision z rsi hist vr < 60 then none
      else some ⟨d, signal_strength rsi hist vr d, calculate_signal_precision z rsi hist vr⟩

end Classifier

/-! ### Pipeline Orchestrator (analysis.py, `TradingAnalyzer.analyze_symbol`,
lines 212-263)

`analyze_symbol_signal` captures the part of `analyze_symbol` that decides
whether a signal exists: the 50-candle guard, the indicator computations on
the close and volume series, the volume ratio, and the call to the
classifier.  The surrounding result dictionary only reformats these values. -/

/-- The signal-deciding part of `TradingAnalyzer.analyze_symbol`: requires at
least 50 candles, computes the indicators, the volume ratio
(`current_volume / volume_sma` when the SMA is positive, else 1), and runs
the classifier. -/
noncomputable def analyze_symbol_signal (closes volumes : List ℚ) : Option (Signal ℝ) :=
  if closes.length < 50 then none
  else
    let volumeSma := calculate_volume_sma volumes 20
    let currentVolume := lastD volumes
    let volumeRatio : ℚ := if 0 < volumeSma then currentVolume / volumeSma else 1
    generate_signal (calculate_z_score closes 20) ((calculate_rsi closes 14 : ℚ) : ℝ)
      (((calculate_macd closes 12 26 9).2.2 : ℚ) : ℝ) ((volumeRatio : ℚ) : ℝ)

/-! ### C9 and C10: strength monotonicity and precision bounds -/

/-- Severity rank of the strength labels (WEAK < MODERATE < STRONG). -/
def strengthRank (s : String) : ℕ :=
  if s = "WEAK" then 0 else if s = "MODERATE" then 1 else 2

/-! ### Data Acquisition (api_client.py, `APIClient`)

The network is abstracted as two oracles, `klines : String → Option (List ℚ)`
(the per-symbol candle series; only its length matters to the batch filter)
and `price : String → Option ℚ` (the latest price, `none` on a failed fetch).
`get_all_futures_data` collects the per-symbol results with a worker pool in
`as_completed` order; the claims it settles here are about membership, which
is order-independent, so it is embedded as a sequential `filterMap`. -/

/-- Python `str.startswith`. -/
def pyStarts (s p : String) : Bool := p.data.isPrefixOf s.data

/-- Python `str.endswith`. -/
def pyEnds (s p : String) : Bool := p.data.isSuffixOf s.data

/-- Contiguous-sublist search on character lists (Python `sub in s`). -/
def hasSub (sub : List Char) : List Char → Bool
  | [] => sub.isEmpty
  | c :: rest => sub.isPrefixOf (c :: rest) || hasSub sub rest

/-- Python `sub in s` on strings. -/
def pyIn (sub s : String) : Bool := hasSub sub.data s.data

/-- The denylist test of `get_all_futures_symbols` (api_client.py lines
53-55): numeric multiplier prefixes, TEST/DEMO/MOCK prefixes, or TEST/DEMO
anywhere in the name. -/
def symbol_denylisted (s : String) : Bool :=
  (pyStarts s "1000" || pyStarts s "10000" || pyStarts s "100000" || pyStarts s "1000000") ||
  (pyStarts s "TEST" || pyStarts s "DEMO" || pyStarts s "MOCK") ||
  pyIn "TEST" s || pyIn "DEMO" s

/-- `APIClient.get_all_futures_symbols` (lines 37-63) applied to the upstream
instrument list: keep the symbols ending in USDT that are not denylisted, in
upstream order.  (The Python `if symbol` truthiness test only drops empty
names, which fail the USDT suffix test anyway.) -/
def get_all_futures_symbols (instruments : List String) : List String :=
  instruments.filter (fun s => pyEnds s "USDT" && !symbol_denylisted s)

/-- One entry of the acquisition batch result. -/
structure FuturesEntry where
  symbol : String
  data : List ℚ
  current_price : ℚ
deriving DecidableEq

/-- `APIClient._process_symbol_data` (lines 149-165): requires a fetched
series of more than 50 points, then a latest price that is truthy (Python
`if current_price:` drops both `None` and `0.0`). -/
def process_symbol_data (klines : String → Option (List ℚ)) (price : String → Option ℚ)
    (symbol : String) : Option FuturesEntry :=
  match klines symbol with
  | none => none
  | some df =>
      if 50 < df.length then
        match price symbol with
        | none => none
        | some p => if p ≠ 0 then some ⟨symbol, df, p⟩ else none
      else none

/-- `APIClient.get_all_futures_data` (lines 167-202): the per-symbol results
that survive `_process_symbol_data`; a failed symbol is dropped and the batch
continues. -/
def get_all_futures_data (klines : String → Option (List ℚ)) (price : String → Option ℚ)
    (symbols : List String) : List FuturesEntry :=
  symbols.filterMap (process_symbol_data klines price)

/-- The candle oracle of the C5 counterexample: AUSDT has exactly 50 points,
BUSDT and DUSDT have 60, CUSDT's fetch failed. -/
def klinesC5 : String → Option (List ℚ) := fun s =>
  if s = "AUSDT" then some (List.replicate 50 1)
  else if s = "BUSDT" then some (List.replicate 60 1)
  else if s = "DUSDT" then some (List.replicate 60 1)
  else none

/-- The price oracle of the C5 counterexample: BUSDT's fetch succeeded with
price 0.0, every other fetch succeeded with price 1. -/
def priceC5 : String → Option ℚ := fun s => if s = "BUSDT" then some 0 else some 1

/-! ### Series Cache (monitoring.py, `CacheManager`, lines 13-39)

The cache and timeout dictionaries are modelled as maps from keys to
`Option` values, and `datetime.now()` as an explicit rational instant passed
to each operation.  Deleting a dictionary entry sets the map to `none` at
that key. -/

/-- The mutable state of `CacheManager`: the value dictionary, the expiry
dictionary, and the constructor's `default_timeout` (300 by default). -/
structure CacheManager (α : Type) where
  cache : String → Option α
  timeouts : String → Option ℚ
  default_timeout : ℚ

/-- Pointwise update of a keyed map (dictionary assignment or deletion). -/
def updateKey {β : Type} (f : String → β) (k : String) (v : β) : String → β :=
  fun q => if q = k then v else f q

/-- `CacheManager.get` (lines 22-33): a hit whose expiry lies in the future
returns the value and leaves the state alone; a hit at or past its expiry
deletes both dictionary entries and reports absence; a miss (or an entry
with no recorded timeout) reports absence without changes. -/
def CacheManager.get {α : Type} (m : CacheManager α) (key : String) (now : ℚ) :
    Option α × CacheManager α :=
  match m.cache key with
  | none => (none, m)
  | some v =>
      match m.timeouts key with
      | none => (none, m)
      | some expiry =>
          if now < expiry then (some v, m)
          else (none, { m with cache := updateKey m.cache key none,
                               timeouts := updateKey m.timeouts key none })

/-- `CacheManager.set` (lines 35-39): store the value and an expiry of
`now + timeout`; Python's `timeout or self.default_timeout` falls back to the
default both when the timeout is `None` and when it is `0`. -/
def CacheManager.set {α : Type} (m : CacheManager α) (key : String) (value : α)
    (timeout : Option ℚ) (now : ℚ) : CacheManager α :=
  let eff := match timeout with
    | some t => if t = 0 then m.default_timeout else t
    | none => m.default_timeout
  { m with cache := updateKey m.cache key (some value),
           timeouts := updateKey m.timeouts key (some (now + eff)) }

/-- The empty cache used by the C7 witness. -/
def emptyCacheN : CacheManager ℕ :=
  ⟨fun _ => none, fun _ => none, 300⟩

/-! ### Result ranking (analysis.py, `TradingAnalyzer.analyze_all_futures`,
line 297)

`analysis_results.sort(key=lambda x: (x['precision'], x['strength']),
reverse=True)` is a stable sort, descending in the Python tuple order on
`(precision, strength)` — in which `strength` is its raw label string,
compared lexicographically by code point exactly as Lean's `String` order
compares it.  The stable descending sort is embedded as `List.mergeSort`
with the reflexive "key not below" comparison. -/

/-- The Python sort key `(x['precision'], x['strength'])` in the lexicographic
product order. -/
def analysisSortKey (r : Signal ℚ) : ℚ ×ₗ String := toLex (r.precision, r.strength)

/-- The final sort of `analyze_all_futures`: stable, descending by
`analysisSortKey`. -/
def sort_analysis_results (l : List (Signal ℚ)) : List (Signal ℚ) :=
  l.mergeSort (fun a b => decide (analysisSortKey b ≤ analysisSortKey a))

/-- C4: every Indicator Engine function returns its documented fallback on a
series shorter than its period: the SMA functions fall back to the mean of
the available points (0 when there are none, matching `sum / 0 = 0` in `ℚ`),
Z-score to 0, RSI to 50, MACD to `(0,0,0)`, Bollinger to `(0,0,0)`,
Stochastic to `(50,50)` and ATR to 0. -/
theorem short_series_fallback_values (l high low : List ℚ) (p fast sig : ℕ) (k : ℚ)
    (h : l.length < p) :
    calculate_sma l p = l.sum / l.length ∧
    calculate_z_score l p = 0 ∧
    calculate_rsi l p = 50 ∧
    calculate_macd l fast p sig = (0, 0, 0) ∧
    calculate_volume_sma l p = l.sum / l.length ∧
    calculate_bollinger_bands l p k = (0, 0, 0) ∧
    calculate_stochastic high low l p = (50, 50) ∧
    calculate_atr high low l p = 0 := by
  have hsma : calculate_sma l p = l.sum / l.length := by
    rw [calculate_sma, if_pos h]
    by_cases hl : 0 < l.length
    · rw [if_pos hl]; rfl
    · rw [if_neg hl]
      have : l.length = 0 := by omega
      rw [this]
      norm_num
  refine ⟨hsma, ?_, ?_, ?_, ?_, ?_, ?_, ?_⟩
  · rw [calculate_z_score, if_pos h]
  · rw [calculate_rsi, if_pos (by omega : l.length < p + 1)]
  · rw [calculate_macd, if_pos h]
  · rw [calculate_volume_sma, if_pos h]
    by_cases hl : 0 < l.length
    · rw [if_pos hl]; rfl
    · rw [if_neg hl]
      have : l.length = 0 := by omega
      rw [this]
      norm_num
  · rw [calculate_bollinger_bands, if_pos h]
  · rw [calculate_stochastic, if_pos h]
  · rw [calculate_atr, if_pos h]

/-- Witness for C4 on the three-point series `[1, 2, 3]` with period 5. -/
theorem short_series_fallback_values_witness :
    calculate_sma [1, 2, 3] 5 = ([1, 2, 3] : List ℚ).sum / (([1, 2, 3] : List ℚ).length : ℚ) ∧
    calculate_z_score [1, 2, 3] 5 = 0 ∧
    calculate_rsi [1, 2, 3] 5 = 50 ∧
    calculate_macd [1, 2, 3] 12 5 9 = (0, 0, 0) ∧
    calculate_volume_sma [1, 2, 3] 5 = ([1, 2, 3] : List ℚ).sum / (([1, 2, 3] : List ℚ).length : ℚ) ∧
    calculate_bollinger_bands [1, 2, 3] 5 2 = (0, 0, 0) ∧
    calculate_stochastic [2, 3, 4] [0, 1, 2] [1, 2, 3] 5 = (50, 50) ∧
    calculate_atr [2, 3, 4] [0, 1, 2] [1, 2, 3] 5 = 0 :=
  short_series_fallback_values [1, 2, 3] [2, 3, 4] [0, 1, 2] 5 12 9 2 (by simp)

/-- C1: for every input tuple, when the additive precision score is below 60
the classifier returns no signal, whatever direction the precedence rules
determined. -/
theorem precision_gate_suppresses_signal (z rsi hist vr : ℚ)
    (h : calculate_signal_precision z rsi hist vr < 60) :
    generate_signal z rsi hist vr = none := by
  unfold generate_signal
  cases hd : signal_direction z rsi hist with
  | none => rfl
  | some d => simp [h]

/-- Witness for C1 at the concrete input `(0, 50, 0, 1)`, whose precision is
50. -/
theorem precision_gate_suppresses_signal_witness :
    generate_signal (0 : ℚ) 50 0 1 = none :=
  precision_gate_suppresses_signal 0 50 0 1
    (by norm_num [calculate_signal_precision, rsi_contribution, macd_contribution,
      volume_contribution])

/-- C2: any signal the classifier produces with `z_score > 2` has direction
SELL, and any signal produced with `z_score < -2` has direction BUY; the RSI
and MACD inputs never change the direction in these regimes. -/
theorem zscore_beyond_threshold_fixes_direction (z rsi hist vr : ℚ) (s : Signal ℚ)
    (h : generate_signal z rsi hist vr = some s) :
    (z > 2 → s.direction = "SELL") ∧ (z < -2 → s.direction = "BUY") := by
  constructor
  · intro hz
    have hd : signal_direction z rsi hist = some "SELL" := by
      simp [signal_direction, hz]
    rw [generate_signal, hd] at h
    by_cases hp : calculate_signal_precision z rsi hist vr < 60
    · simp [hp] at h
    · simp [hp] at h
      rw [← h]
  · intro hz
    have hz2 : ¬ z > 2 := by linarith
    have hd : signal_direction z rsi hist = some "BUY" := by
      simp [signal_direction, hz2, hz]
    rw [generate_signal, hd] at h
    by_cases hp : calculate_signal_precision z rsi hist vr < 60
    · simp [hp] at h
    · simp [hp] at h
      rw [← h]

/-- Witness for C2 at the concrete input `(3, 50, 0, 1)`, which produces a
WEAK SELL signal with precision 80. -/
theorem zscore_beyond_threshold_fixes_direction_witness :
    (⟨"SELL", "WEAK", 80⟩ : Signal ℚ).direction = "SELL" :=
  (zscore_beyond_threshold_fixes_direction 3 50 0 1 ⟨"SELL", "WEAK", 80⟩
    (by norm_num [generate_signal, signal_direction, calculate_signal_precision,
      rsi_contribution, macd_contribution, volume_contribution, signal_strength,
      base_strength, volume_escalate])).1 (by norm_num)

/-! ### Constant-series evaluation (claim C3)

On a 100-point constant series every delta is zero, so the rolling variance
vanishes (z-score 0), the average loss vanishes (RSI hits the
zero-loss branch and returns 100, not 50), every EWM equals the constant
(MACD histogram 0), and the volume ratio is 1.  The classifier therefore
fires the RSI > 70 rule: direction SELL, strength STRONG, precision
50 + 20 = 70 ≥ 60 — a signal is produced, not suppressed. -/

theorem drop_replicate (k n : ℕ) (a : ℚ) :
    (List.replicate n a).drop k = List.replicate (n - k) a := by
  induction k generalizing n with
  | zero => simp
  | succ k ih =>
    cases n with
    | zero => simp
    | succ n =>
      rw [List.replicate_succ, List.drop_succ_cons, ih]
      congr 1
      omega

theorem lastN_replicate (p n : ℕ) (a : ℚ) :
    lastN p (List.replicate n a) = List.replicate (min p n) a := by
  rw [lastN, List.length_replicate, drop_replicate]
  congr 1
  omega

theorem mean_replicate {n : ℕ} (hn : n ≠ 0) (a : ℚ) :
    mean (List.replicate n a) = a := by
  rw [mean, List.sum_replicate, List.length_replicate, nsmul_eq_mul]
  exact mul_div_cancel_left₀ a (Nat.cast_ne_zero.mpr hn)

theorem mean_replicate_zero (n : ℕ) : mean (List.replicate n (0 : ℚ)) = 0 := by
  rw [mean, List.sum_replicate]
  simp

theorem sampleVar_replicate {n : ℕ} (hn : n ≠ 0) (a : ℚ) :
    sampleVar (List.replicate n a) = 0 := by
  rw [sampleVar, devSqSum, mean_replicate hn, List.map_replicate]
  simp

theorem zscore_const (c : ℚ) : calculate_z_score (List.replicate 100 c) 20 = 0 := by
  rw [calculate_z_score, if_neg (by simp), lastN_replicate]
  have hmin : min 20 100 = 20 := by norm_num
  rw [hmin, if_pos (sampleVar_replicate (by norm_num) c)]

theorem zipWith_replicate_both (f : ℚ → ℚ → ℚ) (n : ℕ) (a b : ℚ) :
    List.zipWith f (List.replicate n a) (List.replicate n b) = List.replicate n (f a b) := by
  induction n with
  | zero => rfl
  | succ n ih => simp [List.replicate_succ, ih]

theorem zipWith_cons_replicate (f : ℚ → ℚ → ℚ) (n : ℕ) (a : ℚ) :
    List.zipWith f (a :: List.replicate n a) (List.replicate n a)
      = List.replicate n (f a a) := by
  induction n with
  | zero => rfl
  | succ n ih => simp [List.replicate_succ, List.zipWith_cons_cons, ih]

theorem rsi_const (c : ℚ) : calculate_rsi (List.replicate 100 c) 14 = 100 := by
  have h100 : (100 : ℕ) = 99 + 1 := by norm_num
  rw [calculate_rsi, if_neg (by simp)]
  have hdeltas : List.zipWith (fun a b => b - a) (List.replicate 100 c)
      (List.replicate 100 c).tail = List.replicate 99 (0 : ℚ) := by
    rw [List.tail_replicate]
    have h99 : (100 : ℕ) - 1 = 99 := by norm_num
    rw [h99, h100, List.replicate_succ, zipWith_cons_replicate]
    simp
  simp only [hdeltas, List.map_replicate, lastN_replicate]
  norm_num [mean_replicate_zero]

theorem ewmAux_const (w c : ℚ) (hw : 0 ≤ w) :
    ∀ (n : ℕ) (den : ℚ), 0 ≤ den →
      ewmAux w (List.replicate n c) (c * den) den = List.replicate n c := by
  intro n
  induction n with
  | zero => intro den _; rfl
  | succ n ih =>
    intro den hden
    have h1 : (0 : ℚ) ≤ w * den := mul_nonneg hw hden
    have hpos : (0 : ℚ) < 1 + w * den := by linarith
    rw [List.replicate_succ, ewmAux]
    have hnum : c + w * (c * den) = c * (1 + w * den) := by ring
    rw [hnum, mul_div_cancel_right₀ c (ne_of_gt hpos)]
    exact congrArg (c :: ·) (ih (1 + w * den) (le_of_lt hpos))

theorem ewmMean_const {span : ℕ} (hspan : 1 ≤ span) (n : ℕ) (c : ℚ) :
    ewmMean span (List.replicate n c) = List.replicate n c := by
  have hpos : (0 : ℚ) < (span : ℚ) + 1 := by positivity
  have h2 : (2 : ℚ) ≤ (span : ℚ) + 1 := by
    have h1 : (1 : ℚ) ≤ (span : ℚ) := by exact_mod_cast hspan
    linarith
  have hw : (0 : ℚ) ≤ 1 - 2 / ((span : ℚ) + 1) := by
    have := (div_le_one hpos).mpr h2
    linarith
  have h0 := ewmAux_const (1 - 2 / ((span : ℚ) + 1)) c hw n 0 le_rfl
  rw [mul_zero] at h0
  exact h0

theorem getLastD_replicate (n : ℕ) (a : ℚ) :
    ∀ d : ℚ, (List.replicate n a).getLastD d = if n = 0 then d else a := by
  induction n with
  | zero => intro d; rfl
  | succ n ih =>
    intro d
    rw [List.replicate_succ, List.getLastD_cons, ih a]
    simp

theorem lastD_replicate (n : ℕ) (a : ℚ) :
    lastD (List.replicate n a) = if n = 0 then 0 else a := by
  rw [lastD, getLastD_replicate]

theorem macd_const (c : ℚ) :
    calculate_macd (List.replicate 100 c) 12 26 9 = (0, 0, 0) := by
  rw [calculate_macd, if_neg (by simp)]
  simp only [ewmMean_const (by norm_num : 1 ≤ 12) 100 c,
    ewmMean_const (by norm_num : 1 ≤ 26) 100 c, zipWith_replicate_both, sub_self,
    ewmMean_const (by norm_num : 1 ≤ 9) 100 (0 : ℚ), lastD_replicate]
  norm_num

theorem volume_sma_const (v : ℚ) :
    calculate_volume_sma (List.replicate 100 v) 20 = v := by
  rw [calculate_volume_sma, if_neg (by simp), lastN_replicate]
  have hmin : min 20 100 = 20 := by norm_num
  rw [hmin, mean_replicate (by norm_num)]

theorem generate_signal_const_eval :
    generate_signal (0 : ℝ) 100 0 1 = some ⟨"SELL", "STRONG", 70⟩ := by
  norm_num [generate_signal, signal_direction, calculate_signal_precision,
    rsi_contribution, macd_contribution, volume_contribution, signal_strength,
    base_strength, volume_escalate]

theorem analyze_const (c v : ℚ) :
    analyze_symbol_signal (List.replicate 100 c) (List.replicate 100 v)
      = some ⟨"SELL", "STRONG", 70⟩ := by
  rw [analyze_symbol_signal, if_neg (by simp)]
  simp only [volume_sma_const, lastD_replicate]
  have hvr : (if 0 < v then (if (100 : ℕ) = 0 then (0 : ℚ) else v) / v else 1) = 1 := by
    by_cases hv : 0 < v
    · simp [hv, div_self (ne_of_gt hv)]
    · simp [hv]
  rw [hvr, zscore_const, rsi_const, macd_const]
  norm_num [generate_signal_const_eval]

/-- Counterexample for C3 at the concrete constant series (closes all 5,
volumes all 7): the RSI is 100, not 50, and the classifier produces a STRONG
SELL signal with precision 70 instead of returning absent. -/
theorem constant_series_counterexample :
    calculate_rsi (List.replicate 100 (5 : ℚ)) 14 = 100 ∧
    analyze_symbol_signal (List.replicate 100 (5 : ℚ)) (List.replicate 100 (7 : ℚ))
      = some ⟨"SELL", "STRONG", 70⟩ ∧
    ¬ (calculate_rsi (List.replicate 100 (5 : ℚ)) 14 = 50 ∧
        analyze_symbol_signal (List.replicate 100 (5 : ℚ)) (List.replicate 100 (7 : ℚ))
          = none) := by
  refine ⟨rsi_const 5, analyze_const 5 7, fun h => ?_⟩
  rw [rsi_const 5] at h
  exact absurd h.1 (by norm_num)

/-- C3 (amended): for a 100-point series of constant closes and constant
volumes the z-score is 0 and the MACD histogram is 0, but the RSI is 100
(the zero-average-loss branch), and the classifier returns a STRONG SELL
signal with precision 70 rather than absent. -/
theorem constant_series_indicators (c v : ℚ) :
    calculate_z_score (List.replicate 100 c) 20 = 0 ∧
    calculate_rsi (List.replicate 100 c) 14 = 100 ∧
    (calculate_macd (List.replicate 100 c) 12 26 9).2.2 = 0 ∧
    analyze_symbol_signal (List.replicate 100 c) (List.replicate 100 v)
      = some ⟨"SELL", "STRONG", 70⟩ :=
  ⟨zscore_const c, rsi_const c, by rw [macd_const], analyze_const c v⟩

theorem strengthRank_volume_escalate_ge (s : String) :
    strengthRank s ≤ strengthRank (volume_escalate s) := by
  by_cases h1 : s = "WEAK"
  · simp [volume_escalate, strengthRank, h1]
  · by_cases h2 : s = "MODERATE"
    · simp [volume_escalate, strengthRank, h1, h2]
    · simp [volume_escalate, h1, h2]

theorem strengthRank_signal_strength_mono {K : Type} [LinearOrderedField K]
    (rsi hist : K) {vr₁ vr₂ : K} (hv : vr₁ ≤ vr₂) (d : String) :
    strengthRank (signal_strength rsi hist vr₁ d)
      ≤ strengthRank (signal_strength rsi hist vr₂ d) := by
  unfold signal_strength
  by_cases h1 : vr₁ > 3/2
  · have h2 : vr₂ > 3/2 := lt_of_lt_of_le h1 hv
    simp [h1, h2]
  · by_cases h2 : vr₂ > 3/2
    · simp [h1, h2]
      exact strengthRank_volume_escalate_ge (base_strength rsi hist d)
    · simp [h1, h2]

/-- C9: for fixed z-score, RSI and MACD inputs, the strength of a produced
signal is monotonically non-decreasing in the volume ratio under the ordering
WEAK < MODERATE < STRONG (the claim's instances 0.5 ≤ 1.0 ≤ 2.0 are special
cases). -/
theorem strength_monotone_in_volume_ratio (z rsi hist vr₁ vr₂ : ℚ)
    (s₁ s₂ : Signal ℚ) (hv : vr₁ ≤ vr₂)
    (h₁ : generate_signal z rsi hist vr₁ = some s₁)
    (h₂ : generate_signal z rsi hist vr₂ = some s₂) :
    strengthRank s₁.strength ≤ strengthRank s₂.strength := by
  cases hd : signal_direction z rsi hist with
  | none => rw [generate_signal, hd] at h₁; cases h₁
  | some d =>
    rw [generate_signal, hd] at h₁
    rw [generate_signal, hd] at h₂
    by_cases hp₁ : calculate_signal_precision z rsi hist vr₁ < 60
    · simp [hp₁] at h₁
    · by_cases hp₂ : calculate_signal_precision z rsi hist vr₂ < 60
      · simp [hp₂] at h₂
      · simp [hp₁] at h₁
        simp [hp₂] at h₂
        rw [← h₁, ← h₂]
        exact strengthRank_signal_strength_mono rsi hist hv d

/-- Witness for C9: at `(3, 50, 0)` the classifier yields a WEAK SELL for
volume ratio 1 and a MODERATE SELL for volume ratio 2. -/
theorem strength_monotone_in_volume_ratio_witness :
    strengthRank (⟨"SELL", "WEAK", 80⟩ : Signal ℚ).strength
      ≤ strengthRank (⟨"SELL", "MODERATE", 95⟩ : Signal ℚ).strength :=
  strength_monotone_in_volume_ratio 3 50 0 1 2 ⟨"SELL", "WEAK", 80⟩
    ⟨"SELL", "MODERATE", 95⟩ (by norm_num)
    (by norm_num [generate_signal, signal_direction, calculate_signal_precision,
      rsi_contribution, macd_contribution, volume_contribution, signal_strength,
      base_strength, volume_escalate])
    (by norm_num [generate_signal, signal_direction, calculate_signal_precision,
      rsi_contribution, macd_contribution, volume_contribution, signal_strength,
      base_strength, volume_escalate])

theorem rsi_contribution_nonneg {K : Type} [LinearOrderedField K] (rsi : K) :
    0 ≤ rsi_contribution rsi := by
  unfold rsi_contribution; split_ifs <;> norm_num

theorem macd_contribution_nonneg {K : Type} [LinearOrderedField K] (hist : K) :
    0 ≤ macd_contribution hist := by
  unfold macd_contribution; split_ifs <;> norm_num

theorem volume_contribution_nonneg {K : Type} [LinearOrderedField K] (vr : K) :
    0 ≤ volume_contribution vr := by
  unfold volume_contribution; split_ifs <;> norm_num

theorem calculate_signal_precision_bounds {K : Type} [LinearOrderedField K]
    (z rsi hist vr : K) :
    50 ≤ calculate_signal_precision z rsi hist vr ∧
      calculate_signal_precision z rsi hist vr ≤ 100 := by
  have hz : (0 : K) ≤ min (|z| / 3) 1 * 30 :=
    mul_nonneg (le_min (by positivity) zero_le_one) (by norm_num)
  have h1 : (0 : K) ≤ rsi_contribution rsi := rsi_contribution_nonneg rsi
  have h2 : (0 : K) ≤ macd_contribution hist := macd_contribution_nonneg hist
  have h3 : (0 : K) ≤ volume_contribution vr := volume_contribution_nonneg vr
  constructor
  · exact le_min (by linarith) (by norm_num)
  · exact min_le_right _ _

/-- C10: the additive precision score always lies in `[50, 100]`, and hence
every signal the classifier returns carries a precision in `[60, 100]`. -/
theorem precision_bounds (z rsi hist vr : ℚ) :
    (50 ≤ calculate_signal_precision z rsi hist vr ∧
      calculate_signal_precision z rsi hist vr ≤ 100) ∧
    ∀ s : Signal ℚ, generate_signal z rsi hist vr = some s →
      60 ≤ s.precision ∧ s.precision ≤ 100 := by
  refine ⟨calculate_signal_precision_bounds z rsi hist vr, fun s h => ?_⟩
  cases hd : signal_direction z rsi hist with
  | none => rw [generate_signal, hd] at h; cases h
  | some d =>
    rw [generate_signal, hd] at h
    by_cases hp : calculate_signal_precision z rsi hist vr < 60
    · simp [hp] at h
    · simp [hp] at h
      rw [← h]
      exact ⟨not_lt.mp hp, (calculate_signal_precision_bounds z rsi hist vr).2⟩

/-- Witness for C10: the signal produced at `(3, 50, 0, 1)` carries precision
80, inside `[60, 100]`. -/
theorem precision_bounds_witness :
    60 ≤ (⟨"SELL", "WEAK", 80⟩ : Signal ℚ).precision ∧
      (⟨"SELL", "WEAK", 80⟩ : Signal ℚ).precision ≤ 100 :=
  (precision_bounds 3 50 0 1).2 ⟨"SELL", "WEAK", 80⟩
    (by norm_num [generate_signal, signal_direction, calculate_signal_precision,
      rsi_contribution, macd_contribution, volume_contribution, signal_strength,
      base_strength, volume_escalate])

theorem process_symbol_data_eq_some_iff (klines : String → Option (List ℚ))
    (price : String → Option ℚ) (t : String) (e : FuturesEntry) :
    process_symbol_data klines price t = some e ↔
      ∃ df p, klines t = some df ∧ 50 < df.length ∧ price t = some p ∧ p ≠ 0 ∧
        e = ⟨t, df, p⟩ := by
  cases hk : klines t with
  | none => simp [process_symbol_data, hk]
  | some df =>
    by_cases hlen : 50 < df.length
    · cases hp : price t with
      | none => simp [process_symbol_data, hk, hlen, hp]
      | some p =>
        by_cases hp0 : p = 0
        · simp [process_symbol_data, hk, hlen, hp, hp0]
        · simp only [process_symbol_data, hk, if_pos hlen, hp, if_pos hp0,
            Option.some.injEq]
          constructor
          · intro h
            exact ⟨df, p, rfl, hlen, rfl, hp0, h.symm⟩
          · rintro ⟨df2, p2, hdf2, _, hp2, _, he⟩
            cases hdf2
            cases hp2
            exact he.symm
    · simp [process_symbol_data, hk, hlen]

/-- C5 (amended): a symbol appears in the acquisition batch result if and
only if it was in the requested list, its fetched series has more than 50
points (50 exactly is dropped), and its latest-price fetch returned a
nonzero price; symbols failing any condition are dropped without aborting
the batch. -/
theorem get_all_futures_data_membership (klines : String → Option (List ℚ))
    (price : String → Option ℚ) (symbols : List String) (s : String) :
    s ∈ (get_all_futures_data klines price symbols).map FuturesEntry.symbol ↔
      s ∈ symbols ∧ ∃ df p, klines s = some df ∧ 50 < df.length ∧
        price s = some p ∧ p ≠ 0 := by
  simp only [get_all_futures_data, List.mem_map, List.mem_filterMap]
  constructor
  · rintro ⟨e, ⟨t, ht, he⟩, hs⟩
    rw [process_symbol_data_eq_some_iff] at he
    obtain ⟨df, p, hdf, hlen, hp, hp0, hes⟩ := he
    rw [hes] at hs
    cases hs
    exact ⟨ht, df, p, hdf, hlen, hp, hp0⟩
  · rintro ⟨hs, df, p, hdf, hlen, hp, hp0⟩
    refine ⟨⟨s, df, p⟩, ⟨s, hs, ?_⟩, rfl⟩
    rw [process_symbol_data_eq_some_iff]
    exact ⟨df, p, hdf, hlen, hp, hp0, rfl⟩

/-- Counterexample for C5: AUSDT has a 50-point series (at least 50, as the
claim requires) and a successful price fetch, and BUSDT has a 60-point
series and a successful price fetch (of 0.0), yet both are dropped; only
DUSDT survives the batch. -/
theorem get_all_futures_data_counterexample :
    (klinesC5 "AUSDT" = some (List.replicate 50 1) ∧
      (List.replicate 50 (1 : ℚ)).length = 50 ∧ priceC5 "AUSDT" = some 1) ∧
    (klinesC5 "BUSDT" = some (List.replicate 60 1) ∧ priceC5 "BUSDT" = some 0) ∧
    (get_all_futures_data klinesC5 priceC5 ["AUSDT", "BUSDT", "CUSDT", "DUSDT"]).map
        FuturesEntry.symbol = ["DUSDT"] := by
  refine ⟨⟨rfl, by simp, rfl⟩, ⟨rfl, rfl⟩, ?_⟩
  simp [get_all_futures_data, process_symbol_data, klinesC5, priceC5]

/-- C6 (amended): every symbol returned by `get_all_futures_symbols` ends in
USDT and matches no denylisted name pattern; the sequence keeps the upstream
order and is not deduplicated, so an upstream duplicate stays a duplicate. -/
theorem futures_symbols_filter (instruments : List String) (s : String)
    (h : s ∈ get_all_futures_symbols instruments) :
    pyEnds s "USDT" = true ∧ symbol_denylisted s = false := by
  rw [get_all_futures_symbols, List.mem_filter] at h
  have h2 := h.2
  simp only [Bool.and_eq_true, Bool.not_eq_true'] at h2
  exact h2

/-- Counterexample for C6: the upstream list `["BTCUSDT", "BTCUSDT"]` passes
through the filter unchanged, so the returned sequence contains a duplicate
symbol. -/
theorem futures_symbols_duplicate_counterexample :
    get_all_futures_symbols ["BTCUSDT", "BTCUSDT"] = ["BTCUSDT", "BTCUSDT"] ∧
    ¬ (get_all_futures_symbols ["BTCUSDT", "BTCUSDT"]).Nodup := by
  have he : get_all_futures_symbols ["BTCUSDT", "BTCUSDT"] = ["BTCUSDT", "BTCUSDT"] := by
    simp [get_all_futures_symbols, pyEnds, symbol_denylisted, pyStarts, pyIn, hasSub,
      List.isPrefixOf, List.isSuffixOf]
  refine ⟨he, ?_⟩
  rw [he]
  simp

/-- Witness for C6 at the one-element upstream list `["BTCUSDT"]`. -/
theorem futures_symbols_filter_witness :
    pyEnds "BTCUSDT" "USDT" = true ∧ symbol_denylisted "BTCUSDT" = false :=
  futures_symbols_filter ["BTCUSDT"] "BTCUSDT" (by simp [get_all_futures_symbols,
    pyEnds, symbol_denylisted, pyStarts, pyIn, hasSub, List.isPrefixOf, List.isSuffixOf])

/-- C7: after any `set` of a key, a `get` of that key performed at or after
the entry's stored expiry reports absence and removes the entry from both
dictionaries — an expired value is never returned. -/
theorem cache_get_expired_removes {α : Type} (m : CacheManager α) (key : String)
    (value : α) (timeout : Option ℚ) (tset tnow expiry : ℚ)
    (hexp : (m.set key value timeout tset).timeouts key = some expiry)
    (h : expiry ≤ tnow) :
    ((m.set key value timeout tset).get key tnow).1 = none ∧
    ((m.set key value timeout tset).get key tnow).2.cache key = none ∧
    ((m.set key value timeout tset).get key tnow).2.timeouts key = none := by
  have hc : (m.set key value timeout tset).cache key = some value := by
    simp [CacheManager.set, updateKey]
  have h2 : ¬ tnow < expiry := not_lt.mpr h
  simp [CacheManager.get, hc, hexp, h2, updateKey]

/-- Witness for C7: set key k with ttl 10 at instant 0, get it at instant 10
(its exact expiry): absent, and both entries are gone. -/
theorem cache_get_expired_removes_witness :
    ((emptyCacheN.set "k" 5 (some 10) 0).get "k" 10).1 = none ∧
    ((emptyCacheN.set "k" 5 (some 10) 0).get "k" 10).2.cache "k" = none ∧
    ((emptyCacheN.set "k" 5 (some 10) 0).get "k" 10).2.timeouts "k" = none :=
  cache_get_expired_removes emptyCacheN "k" 5 (some 10) 0 10 10
    (by norm_num [CacheManager.set, updateKey]) le_rfl

/-- C8: the returned sequence is sorted in descending order of the pair
`(precision, strength)` with strength compared as its literal label text —
concretely, at equal precision a WEAK row sorts before a STRONG row, and a
STRONG row before a MODERATE one, because "WEAK" > "STRONG" > "MODERATE"
lexicographically. -/
theorem analysis_results_sort_order :
    (∀ l : List (Signal ℚ), (sort_analysis_results l).Pairwise
      (fun a b => analysisSortKey b ≤ analysisSortKey a)) ∧
    analysisSortKey ⟨"BUY", "STRONG", 70⟩ < analysisSortKey ⟨"BUY", "WEAK", 70⟩ ∧
    analysisSortKey ⟨"BUY", "MODERATE", 70⟩ < analysisSortKey ⟨"BUY", "STRONG", 70⟩ := by
  refine ⟨fun l => ?_, ?_, ?_⟩
  · have h := @List.sorted_mergeSort (Signal ℚ)
      (fun a b : Signal ℚ => decide (analysisSortKey b ≤ analysisSortKey a))
      (fun a b c h₁ h₂ => by
        simp only [decide_eq_true_eq] at h₁ h₂ ⊢
        exact le_trans h₂ h₁)
      (fun a b => by
        simp only [Bool.or_eq_true, decide_eq_true_eq]
        exact le_total (analysisSortKey b) (analysisSortKey a)) l
    rw [sort_analysis_results]
    exact h.imp (fun hab => by simpa using hab)
  · rw [analysisSortKey, analysisSortKey, Prod.Lex.lt_iff]
    right
    refine ⟨rfl, ?_⟩
    rw [String.lt_iff_toList_lt]
    decide
  · rw [analysisSortKey, analysisSortKey, Prod.Lex.lt_iff]
    right
    refine ⟨rfl, ?_⟩
    rw [String.lt_iff_toList_lt]
    decide

end ZBot
